import Mathlib

/-!
Verification of the ServerNet control plane (orchestrator `server_manager.go`
and the per-node instance manager) against its specification.

The Go source is shallowly embedded: pure fragments become Lean functions,
handler control flow becomes functions from an explicit environment (the
outcomes of process/network I/O) to a response together with a trace of the
externally visible effects.  Machine integers are modeled as `Int`/`Nat`
(uint64 subtraction is taken modulo 2^64 where it occurs), `float64` CPU
readings — used only with `=`/`<` comparisons in the source — are modeled as
rationals.
-/

namespace ServerNet

/-! ### Association-list model of Go maps -/

/-- Lookup in a Go map modeled as an association list (first binding wins). -/
def alookup {α β : Type} [DecidableEq α] (l : List (α × β)) (k : α) : Option β :=
  (l.find? (fun p => decide (p.1 = k))).map (·.2)

/-- Go map `delete(m, k)`. -/
def adel {α β : Type} [DecidableEq α] (l : List (α × β)) (k : α) : List (α × β) :=
  l.filter (fun p => decide (¬ p.1 = k))

/-- Go map assignment `m[k] = v`. -/
def aset {α β : Type} [DecidableEq α] (l : List (α × β)) (k : α) (v : β) : List (α × β) :=
  (k, v) :: adel l k

theorem alookup_adel_self {α β : Type} [DecidableEq α] (l : List (α × β)) (k : α) :
    alookup (adel l k) k = none := by
  induction l with
  | nil => rfl
  | cons p t ih =>
      by_cases h : p.1 = k
      · rw [show adel (p :: t) k = adel t k by simp [adel, h]]
        exact ih
      · rw [show adel (p :: t) k = p :: adel t k by simp [adel, h]]
        rw [show alookup (p :: adel t k) k = alookup (adel t k) k by
          simp [alookup, List.find?, h]]
        exact ih

theorem alookup_aset_self {α β : Type} [DecidableEq α] (l : List (α × β)) (k : α) (v : β) :
    alookup (aset l k v) k = some v := by
  simp [aset, alookup, List.find?]

/-! ### Port pool (instance manager)

Source: `allocatePort` / `releasePort` and the globals
`nextPort = 3000`, `available = &IntHeap{}`.

`IntHeap` implements Go's `container/heap` interface with `Less i j = h[i] < h[j]`.
`container/heap` is the Go standard library (external to this repository);
it is modeled by its documented contract — `heap.Push` inserts an element,
`heap.Pop` removes and returns the minimum element — with the multiset of
released ports represented as a sorted list. -/

/-- The pool state: `nextPort` watermark and the `available` min-heap of
released ports (represented as a list sorted ascending). -/
structure PoolState where
  nextPort : Int
  available : List Int
  deriving DecidableEq, Repr

/-- Source `allocatePort`: if the heap is non-empty pop the minimum, else take the
watermark and increment it. -/
def allocatePort (s : PoolState) : Int × PoolState :=
  match s.available with
  | [] => (s.nextPort, ⟨s.nextPort + 1, []⟩)
  | p :: rest => (p, ⟨s.nextPort, rest⟩)

/-- Source `releasePort`: ignore invalid ports `p ≤ 0`, otherwise push `p` into the
heap. -/
def releasePort (p : Int) (s : PoolState) : PoolState :=
  if p ≤ 0 then s else ⟨s.nextPort, s.available.orderedInsert (· ≤ ·) p⟩

/-- Invariant of the pool: the heap is sorted (heap-shape), the watermark is
positive, and every released port is positive and below the watermark. -/
def PoolInv (s : PoolState) : Prop :=
  s.available.Sorted (· ≤ ·) ∧ 0 < s.nextPort ∧ ∀ x ∈ s.available, 0 < x ∧ x < s.nextPort

instance (s : PoolState) : Decidable (PoolInv s) := by
  unfold PoolInv; infer_instance

/-- The ports returned by `k` successive allocations from state `s`. -/
def allocSeq (s : PoolState) : Nat → List Int
  | 0 => []
  | k + 1 => (allocatePort s).1 :: allocSeq (allocatePort s).2 k

/-- Pool states (with the multiset of outstanding allocated ports) reachable
by sequences of pool operations that respect the caller contract stated in
the spec: each allocated port is released at most once per allocation. -/
inductive PoolReach : PoolState → List Int → Prop
  | init : PoolReach ⟨3000, []⟩ []
  | alloc {s out} : PoolReach s out →
      PoolReach (allocatePort s).2 ((allocatePort s).1 :: out)
  | release {s out p} : PoolReach s out → p ∈ out →
      PoolReach (releasePort p s) (out.erase p)

theorem allocatePort_nil {s : PoolState} (hav : s.available = []) :
    allocatePort s = (s.nextPort, ⟨s.nextPort + 1, []⟩) := by
  simp [allocatePort, hav]

theorem allocatePort_cons {s : PoolState} {p : Int} {rest : List Int}
    (hav : s.available = p :: rest) : allocatePort s = (p, ⟨s.nextPort, rest⟩) := by
  simp [allocatePort, hav]

theorem poolInv_alloc {s : PoolState} (h : PoolInv s) : PoolInv (allocatePort s).2 := by
  obtain ⟨hs, hw, hb⟩ := h
  cases hav : s.available with
  | nil =>
      rw [allocatePort_nil hav]
      refine ⟨List.sorted_nil, ?_, by simp⟩
      show 0 < s.nextPort + 1
      omega
  | cons p rest =>
      rw [hav] at hs hb
      rw [allocatePort_cons hav]
      refine ⟨hs.tail, hw, ?_⟩
      intro x hx
      exact hb x (List.mem_cons_of_mem p hx)

theorem alloc_le_next_alloc {s : PoolState} (h : PoolInv s) :
    (allocatePort s).1 ≤ (allocatePort (allocatePort s).2).1 := by
  obtain ⟨hs, hw, hb⟩ := h
  cases hav : s.available with
  | nil =>
      rw [allocatePort_nil hav]
      show s.nextPort ≤ s.nextPort + 1
      omega
  | cons p rest =>
      rw [hav] at hs hb
      rw [allocatePort_cons hav]
      cases rest with
      | nil =>
          show p ≤ s.nextPort
          exact le_of_lt (hb p (List.mem_cons_self p [])).2
      | cons q rest2 =>
          show p ≤ q
          exact (List.pairwise_cons.mp hs).1 q (List.mem_cons_self q rest2)

theorem allocSeq_chain {s : PoolState} (k : Nat) (h : PoolInv s) :
    (allocSeq s k).Chain' (· ≤ ·) := by
  induction k generalizing s with
  | zero => exact List.chain'_nil
  | succ k ih =>
      cases k with
      | zero => simp [allocSeq]
      | succ m =>
          rw [allocSeq, allocSeq]
          refine List.chain'_cons.mpr ⟨alloc_le_next_alloc h, ?_⟩
          rw [← allocSeq]
          exact ih (poolInv_alloc h)

theorem poolReach_inv {s : PoolState} {out : List Int} (h : PoolReach s out) :
    PoolInv s ∧ ∀ p ∈ out, 0 < p ∧ p < s.nextPort := by
  induction h with
  | init => exact ⟨⟨List.sorted_nil, by norm_num, by simp⟩, by simp⟩
  | @alloc s out _ ih =>
      obtain ⟨⟨hs, hw, hb⟩, hout⟩ := ih
      refine ⟨poolInv_alloc ⟨hs, hw, hb⟩, ?_⟩
      intro p hp
      cases hav : s.available with
      | nil =>
          rw [allocatePort_nil hav] at hp ⊢
          rcases List.mem_cons.mp hp with rfl | hmem
          · refine ⟨hw, ?_⟩
            show s.nextPort < s.nextPort + 1
            omega
          · obtain ⟨h1, h2⟩ := hout p hmem
            refine ⟨h1, ?_⟩
            show p < s.nextPort + 1
            omega
      | cons q rest =>
          rw [hav] at hb
          rw [allocatePort_cons hav] at hp ⊢
          rcases List.mem_cons.mp hp with heq | hmem
          · subst heq
            exact hb p (List.mem_cons_self p rest)
          · exact hout p hmem
  | @release s out p _ hmem ih =>
      obtain ⟨⟨hs, hw, hb⟩, hout⟩ := ih
      obtain ⟨hp0, hplt⟩ := hout p hmem
      have hrel : releasePort p s = ⟨s.nextPort, s.available.orderedInsert (· ≤ ·) p⟩ := by
        simp [releasePort, not_le.mpr hp0]
      refine ⟨⟨?_, ?_, ?_⟩, ?_⟩
      · rw [hrel]; exact hs.orderedInsert p s.available
      · rw [hrel]; exact hw
      · rw [hrel]
        intro x hx
        simp only
        rcases (List.mem_orderedInsert (· ≤ ·) ).mp hx with rfl | hx'
        · exact ⟨hp0, hplt⟩
        · exact hb x hx'
      · intro q hq
        rw [hrel]
        exact hout q (List.mem_of_mem_erase hq)

/-- C6: Port-pool operations: `allocate` pops and returns the minimum of
the released heap when it is non-empty (leaving the watermark unchanged) and
otherwise returns the watermark and increments it; `release p` is a no-op for
`p ≤ 0` and otherwise pushes `p` into the heap; successive allocations
without intervening releases are monotonically non-decreasing; after
`release p` the next allocation returns `p` whenever `p` is the smallest free
port; and the pool invariant holds on every state reachable by sequences of
pool operations respecting the caller contract. -/
theorem portPool_ops_spec :
    (∀ s : PoolState, PoolInv s → s.available ≠ [] →
      (allocatePort s).1 ∈ s.available ∧
      (∀ q ∈ s.available, (allocatePort s).1 ≤ q) ∧
      (allocatePort s).2.available = s.available.tail ∧
      (allocatePort s).2.nextPort = s.nextPort) ∧
    (∀ s : PoolState, s.available = [] →
      allocatePort s = (s.nextPort, ⟨s.nextPort + 1, []⟩)) ∧
    (∀ (s : PoolState) (p : Int), p ≤ 0 → releasePort p s = s) ∧
    (∀ (s : PoolState) (p : Int), 0 < p →
      (releasePort p s).available = s.available.orderedInsert (· ≤ ·) p ∧
      (releasePort p s).nextPort = s.nextPort) ∧
    (∀ (s : PoolState) (k : Nat), PoolInv s → (allocSeq s k).Chain' (· ≤ ·)) ∧
    (∀ (s : PoolState) (p : Int), 0 < p → (∀ q ∈ s.available, p ≤ q) →
      (allocatePort (releasePort p s)).1 = p) ∧
    (∀ (s : PoolState) (out : List Int), PoolReach s out → PoolInv s) := by
  refine ⟨?_, ?_, ?_, ?_, ?_, ?_, ?_⟩
  · intro s h hne
    obtain ⟨hs, _, _⟩ := h
    cases hav : s.available with
    | nil => exact absurd hav hne
    | cons p rest =>
        rw [hav] at hs
        rw [allocatePort_cons hav]
        refine ⟨List.mem_cons_self p rest, ?_, rfl, rfl⟩
        intro q hq
        rcases List.mem_cons.mp hq with rfl | hmem
        · exact le_refl q
        · exact (List.pairwise_cons.mp hs).1 q hmem
  · intro s hav
    exact allocatePort_nil hav
  · intro s p hp
    simp [releasePort, hp]
  · intro s p hp
    constructor <;> simp [releasePort, not_le.mpr hp]
  · intro s k h
    exact allocSeq_chain k h
  · intro s p hp hmin
    have hrel : (releasePort p s).available = p :: s.available := by
      simp only [releasePort, if_neg (not_le.mpr hp)]
      cases hav : s.available with
      | nil => rfl
      | cons q rest =>
          have hq : p ≤ q := hmin q (by rw [hav]; exact List.mem_cons_self q rest)
          simp [List.orderedInsert, hq]
    rw [allocatePort_cons hrel]
  · intro s out h
    exact (poolReach_inv h).1

/-- Witness for `portPool_ops_spec` at concrete inputs: from the pool state
with watermark 3001 and released heap [3000], a release of 50 followed by an
allocation returns 50, and two successive allocations are non-decreasing. -/
theorem portPool_ops_spec_witness :
    (allocatePort (releasePort 50 ⟨3001, [3000]⟩)).1 = 50 ∧
    (allocSeq ⟨3001, [3000]⟩ 2).Chain' (· ≤ ·) :=
  ⟨portPool_ops_spec.2.2.2.2.2.1 ⟨3001, [3000]⟩ 50 (by decide) (by decide),
   portPool_ops_spec.2.2.2.2.1 ⟨3001, [3000]⟩ 2 (by decide)⟩

/-! ### Supervisor state (instance manager)

Source globals: `servers : map[int]*Server` (by ID), `serverMap : map[string]*Server`
(by name; a `nil` value marks a stopped instance), and the `Server` struct.
The `Cmd` process handle and the `cleanupOnce` guard are not data; process
interactions are supplied as environment outcomes where handlers need them. -/

/-- The `Server` struct (`ID`, `Port`, `Status`; `ID` is set to the port). -/
structure Server where
  id : Int
  port : Int
  status : String
  deriving DecidableEq, Repr

/-- An entry of `serverMap`: Go stores `*Server`, so a key can be present
with a `nil` value (`none` here), which `stopServerHold` uses to mark a
stopped instance. -/
abbrev ServerMap := List (String × Option Server)

/-- The `servers` map keyed by ID. -/
abbrev ServersById := List (Int × Server)

/-! ### `systemHandler` (instance manager, `GET /system`)

Only the pure instance-list construction is embedded; the CPU/RAM sampling
is I/O around it. -/

/-- An element of the `instances` array in the `/system` reply (the fields
the handler fills: name, port, status). -/
structure SysInstance where
  name : String
  port : Int
  status : String
  deriving DecidableEq, Repr

/-- The loop body of `systemHandler`: for each `serverMap` entry, a non-nil
`*Server` contributes its port and status; a nil entry leaves `port` at the
zero value and sets `status = "running"` (the source comment says a nil
entry is to be considered "stopped"). -/
def systemHandlerInstances (m : ServerMap) : List SysInstance :=
  m.map fun p =>
    match p.2 with
    | some s => ⟨p.1, s.port, s.status⟩
    | none => ⟨p.1, 0, "running"⟩

/-- C4: The claim states that every instance reported by `GET /system`
with status `running` has a live child, and that entries whose child has
been stopped are never reported as `running`.  The code does the opposite:
a `serverMap` entry holding `nil` — exactly what `stopServerHold` leaves
behind after stopping a child — is reported with status `"running"`,
contradicting the claim and the handler's own comment ("If s is nil, we can
consider it stopped").  Evaluation at the failing input: a map whose only
entry is a stopped (nil) record for "alpha". -/
theorem systemHandler_nil_entry_reported_running :
    systemHandlerInstances [("alpha", none)] =
      [{ name := "alpha", port := 0, status := "running" }] := by
  rfl

/-! ### `stopServerHandler` (instance manager, `GET /stop-server`) -/

/-- Responses of `stopServerHandler`, one constructor per exit point.
HTTP codes: `missingName` 400, `notFound` 404, `internalNoId` 500,
`signalFailed` 500, `stopped` 200.  `nilServerPanic` marks the nil-pointer
dereference `srv.ID` that the source performs when the map entry holds
`nil`. -/
inductive StopResp
  | missingName
  | notFound
  | nilServerPanic
  | internalNoId
  | signalFailed
  | stopped
  deriving DecidableEq, Repr

/-- HTTP status code of each `stopServerHandler` exit (the panic aborts the
request without a handler-written status). -/
def stopRespCode : StopResp → Nat
  | .missingName => 400
  | .notFound => 404
  | .nilServerPanic => 0
  | .internalNoId => 500
  | .signalFailed => 500
  | .stopped => 200

/-- State touched by `stopServerHandler`. -/
structure IMState where
  serverMap : ServerMap
  servers : ServersById
  pool : PoolState
  deriving DecidableEq, Repr

/-- Source `stopServerHandler`: look up the name (404 if absent), delete the
`serverMap` entry, look up `servers[srv.ID]` (500 if absent), send SIGINT
(`signalOk` is the outcome of `Process.Signal`), delete from `servers`,
and return the port (`realSrv.ID`) to the pool. -/
def stopServerHandler (st : IMState) (signalOk : Bool) (name : String) :
    StopResp × IMState :=
  if name = "" then (.missingName, st)
  else
    match alookup st.serverMap name with
    | none => (.notFound, st)
    | some none => (.nilServerPanic, { st with serverMap := adel st.serverMap name })
    | some (some srv) =>
        let m1 := adel st.serverMap name
        match alookup st.servers srv.id with
        | none => (.internalNoId, { st with serverMap := m1 })
        | some realSrv =>
            if signalOk then
              (.stopped,
                { serverMap := m1,
                  servers := adel st.servers realSrv.id,
                  pool := releasePort realSrv.id st.pool })
            else (.signalFailed, { st with serverMap := m1 })

/-- The concrete one-server state used to refute C3: "alpha" running on
port 3000, pool watermark 3001. -/
def stopC3State : IMState :=
  { serverMap := [("alpha", some ⟨3000, 3000, "running"⟩)],
    servers := [(3000, ⟨3000, 3000, "running"⟩)],
    pool := ⟨3001, []⟩ }

/-- C3 counterexample: The claim says `stop(n)` twice in succession
succeeds both times, the second call being a successful no-op.  On the code,
the first stop succeeds (200) but the second returns 404 Not Found: after
the first call deletes the `serverMap` entry, the handler's lookup fails and
it errors instead of returning success. -/
theorem stopServer_second_call_not_found :
    (stopServerHandler stopC3State true "alpha").1 = .stopped ∧
    (stopServerHandler (stopServerHandler stopC3State true "alpha").2 true "alpha").1
      = .notFound ∧
    stopRespCode .notFound = 404 := by
  refine ⟨rfl, ?_, rfl⟩
  rfl

/-- C3 amended: For every state with a running child record for `n`
(present in `serverMap` and in `servers` under its ID) and a deliverable
signal, the first `stop(n)` succeeds with 200, removes the record and
releases the port; but a second `stop(n)` is not a successful no-op: it
fails with 404 Not Found because the record is gone. -/
theorem stopServer_first_ok_second_not_found
    (st : IMState) (name : String) (srv realSrv : Server)
    (hname : ¬ name = "")
    (hmap : alookup st.serverMap name = some (some srv))
    (hsrv : alookup st.servers srv.id = some realSrv) :
    (stopServerHandler st true name).1 = .stopped ∧
    (stopServerHandler st true name).2.serverMap = adel st.serverMap name ∧
    alookup (stopServerHandler st true name).2.serverMap name = none ∧
    (stopServerHandler st true name).2.pool = releasePort realSrv.id st.pool ∧
    (stopServerHandler (stopServerHandler st true name).2 true name).1 = .notFound := by
  have h1 : stopServerHandler st true name =
      (.stopped,
        { serverMap := adel st.serverMap name,
          servers := adel st.servers realSrv.id,
          pool := releasePort realSrv.id st.pool }) := by
    simp [stopServerHandler, hname, hmap, hsrv]
  refine ⟨by rw [h1], by rw [h1], ?_, by rw [h1], ?_⟩
  · rw [h1]
    exact alookup_adel_self st.serverMap name
  · rw [h1]
    simp [stopServerHandler, hname, alookup_adel_self st.serverMap name]

/-- Witness for `stopServer_first_ok_second_not_found` at the concrete
one-server state. -/
theorem stopServer_first_ok_second_not_found_witness :
    (stopServerHandler stopC3State true "alpha").1 = .stopped ∧
    (stopServerHandler (stopServerHandler stopC3State true "alpha").2 true "alpha").1
      = .notFound :=
  have h := stopServer_first_ok_second_not_found stopC3State "alpha"
    ⟨3000, 3000, "running"⟩ ⟨3000, 3000, "running"⟩
    (by decide) (by rfl) (by rfl)
  ⟨h.1, h.2.2.2.2⟩

/-! ### `startServerHandler` (instance manager, `GET /start-server`)

The child's merged stdout+stderr stream is modeled as the timed list of
lines the scanner sees, plus the time at which the stream ends (`none` when
it stays open past any bound relevant here).  The scanner goroutine closes
the `started` channel at the first line containing both readiness
substrings, and also closes it when the scanner reaches end of stream; the
handler's `select` takes the `started` branch if that closure happens
within the 60 s budget and the timeout branch otherwise. -/

/-- Go `strings.Contains` on the character lists. -/
def goContains (s sub : String) : Bool := decide (sub.toList <:+: s.toList)

/-- The readiness token: a line containing both substrings `Done` and
`For help`. -/
def isReadyLine (line : String) : Bool :=
  goContains line "Done" && goContains line "For help"

/-- The child's merged output as the scanner sees it: `(seconds, line)`
pairs in order, and the time the stream ends (if it does). -/
structure ChildStream where
  lines : List (Nat × String)
  eof : Option Nat
  deriving DecidableEq, Repr

/-- The time at which the scanner goroutine closes the `started` channel:
at the first readiness line, otherwise when the stream ends (the scanner
loop exits and the channel is closed unconditionally). -/
def startedCloseTime (st : ChildStream) : Option Nat :=
  match st.lines.find? (fun p => isReadyLine p.2) with
  | some p => some p.1
  | none => st.eof

/-- Environment of one `start-server` request: current maps and pool and
the outcomes of the I/O the handler performs. -/
structure StartEnv where
  serverMap : ServerMap
  servers : ServersById
  pool : PoolState
  setupOk : Bool
  pipeOk : Bool
  startOk : Bool
  stream : ChildStream
  deriving DecidableEq, Repr

/-- Responses of `startServerHandler`, one constructor per exit point.
HTTP codes: `missingName`/`alreadyRunning` 400, `setupFailed`/`pipeFailed`/
`startFailed` 500, `startTimeout` 504, `started` 200. -/
inductive StartResp
  | missingName
  | alreadyRunning
  | setupFailed
  | pipeFailed
  | startFailed
  | startTimeout
  | started (port : Int)
  deriving DecidableEq, Repr

/-- HTTP status code of each `startServerHandler` exit. -/
def startRespCode : StartResp → Nat
  | .missingName => 400
  | .alreadyRunning => 400
  | .setupFailed => 500
  | .pipeFailed => 500
  | .startFailed => 500
  | .startTimeout => 504
  | .started _ => 200

/-- Result of one `start-server` request: response, whether the handler
killed the child, and the state left behind. -/
structure StartResult where
  resp : StartResp
  killed : Bool
  serverMap : ServerMap
  servers : ServersById
  pool : PoolState
  deriving DecidableEq, Repr

/-- Source `startServerHandler`: reject a missing name; reject a name already in
`serverMap` (even a nil entry); allocate the lowest free port; provision the
directory; start the child; then `select` on the scanner's `started`
channel against a 60 s timer.  The deferred `releasePort` returns the port
whenever the handler exits before registration.  When `started` is closed
within 60 s — by a readiness line or by end of stream — the handler
registers the record with status `"running"` and replies 200. -/
def startServerHandler (env : StartEnv) (name : String) : StartResult :=
  if name = "" then
    ⟨.missingName, false, env.serverMap, env.servers, env.pool⟩
  else if (alookup env.serverMap name).isSome then
    ⟨.alreadyRunning, false, env.serverMap, env.servers, env.pool⟩
  else
    let pr := allocatePort env.pool
    let port := pr.1
    let pool1 := pr.2
    if ¬ env.setupOk then
      ⟨.setupFailed, false, env.serverMap, env.servers, releasePort port pool1⟩
    else if ¬ env.pipeOk then
      ⟨.pipeFailed, false, env.serverMap, env.servers, releasePort port pool1⟩
    else if ¬ env.startOk then
      ⟨.startFailed, false, env.serverMap, env.servers, releasePort port pool1⟩
    else
      match startedCloseTime env.stream with
      | some t =>
          if t ≤ 60 then
            let srv : Server := ⟨port, port, "running"⟩
            ⟨.started port, false,
              aset env.serverMap name (some srv),
              aset env.servers port srv,
              pool1⟩
          else
            ⟨.startTimeout, true, env.serverMap, env.servers, releasePort port pool1⟩
      | none =>
          ⟨.startTimeout, true, env.serverMap, env.servers, releasePort port pool1⟩

/-- C2: The claim states that `start(name)` fails with `StartTimeout`
(504) exactly when the readiness token is not observed within 60 s, and
that when the child's merged output ends without the token the caller
transitions via the timeout branch.  The code — against its own comment
"(caller will timeout)" — closes the `started` channel at end of stream,
which makes the `select` take the success branch: for every request whose
child stream ends within the budget without ever containing the readiness
token, the handler replies 200, registers the instance as `running`, does
not kill the child, and keeps the port allocated. -/
theorem startServer_eof_registers_running
    (env : StartEnv) (name : String) (t : Nat)
    (hname : ¬ name = "")
    (habsent : alookup env.serverMap name = none)
    (hsetup : env.setupOk = true)
    (hpipe : env.pipeOk = true)
    (hstart : env.startOk = true)
    (hnotoken : ∀ p ∈ env.stream.lines, isReadyLine p.2 = false)
    (heof : env.stream.eof = some t)
    (ht : t ≤ 60) :
    (startServerHandler env name).resp = .started (allocatePort env.pool).1 ∧
    startRespCode (startServerHandler env name).resp = 200 ∧
    (startServerHandler env name).killed = false ∧
    alookup (startServerHandler env name).serverMap name =
      some (some ⟨(allocatePort env.pool).1, (allocatePort env.pool).1, "running"⟩) ∧
    (startServerHandler env name).pool = (allocatePort env.pool).2 := by
  have hfind : env.stream.lines.find? (fun p => isReadyLine p.2) = none :=
    List.find?_eq_none.mpr (fun p hp => by simp [hnotoken p hp])
  have hclose : startedCloseTime env.stream = some t := by
    rw [startedCloseTime, hfind, heof]
  have hres : startServerHandler env name =
      ⟨.started (allocatePort env.pool).1, false,
        aset env.serverMap name
          (some ⟨(allocatePort env.pool).1, (allocatePort env.pool).1, "running"⟩),
        aset env.servers (allocatePort env.pool).1
          ⟨(allocatePort env.pool).1, (allocatePort env.pool).1, "running"⟩,
        (allocatePort env.pool).2⟩ := by
    simp [startServerHandler, hname, habsent, hsetup, hpipe, hstart, hclose, ht]
  rw [hres]
  exact ⟨rfl, rfl, rfl, alookup_aset_self _ _ _, rfl⟩

/-- Witness for `startServer_eof_registers_running`: the failing input of
C2 — empty maps, fresh pool, a child that prints one non-token line and
whose stream ends at 5 s.  The handler registers "beta" as running with
200 instead of timing out with 504. -/
theorem startServer_eof_registers_running_witness :
    (startServerHandler
        ⟨[], [], ⟨3000, []⟩, true, true, true,
          ⟨[(3, "Starting net.minecraft.server")], some 5⟩⟩ "beta").resp
      = .started 3000 ∧
    (startServerHandler
        ⟨[], [], ⟨3000, []⟩, true, true, true,
          ⟨[(3, "Starting net.minecraft.server")], some 5⟩⟩ "beta").killed = false :=
  have h := startServer_eof_registers_running
    ⟨[], [], ⟨3000, []⟩, true, true, true,
      ⟨[(3, "Starting net.minecraft.server")], some 5⟩⟩ "beta" 5
    (by decide) (by rfl) (by rfl) (by rfl) (by rfl)
    (by decide) (by rfl) (by decide)
  ⟨h.1, h.2.2.1⟩

/-! ### `saveWorldHandler` and `restartWorldHandler`
(instance manager, `GET /save-instance` and `GET /restart-instance`)

Constants from the source file. `token` is the hardcoded package-level
constant used by the handlers; the `GITHUB_TOKEN` read in `main` is a local
variable that shadows it and is never passed to them. -/

/-- Source: `token = ""  // NOTE: Hardcoded token`. -/
def token : String := ""

/-- Source: `repoWorlds = "JuMaEn16/lunexia-worlds"`. -/
def repoWorlds : String := "JuMaEn16/lunexia-worlds"

/-- Source: `defaultFallback = "lobby"`. -/
def defaultFallback : String := "lobby"

/-- The destination the handlers pass to the proxy `/move_from_to` call:
the fallback, unless it is empty or equal to the instance being saved. -/
def moveDest (name : String) : Option String :=
  if defaultFallback ≠ "" ∧ defaultFallback ≠ name then some defaultFallback else none

/-- Go `path.Base` (as used for the upload destination `{name}.zip`):
the last slash-separated component. -/
def pathBase (s : String) : String := ((s.splitOn "/").getLast?).getD s

/-- Outcome of the proxy `/move_from_to` call, one constructor per branch
the handlers distinguish: transport error, non-200 status, unparsable JSON,
`ok=false`, or success with the `moved_players` list. -/
inductive MoveFromToResult
  | transportErr
  | badStatus (code : Nat)
  | badJson
  | okFalse
  | ok (movedPlayers : List String)
  deriving DecidableEq, Repr

/-- Environment of one save/restart request: the proxy outcome, the current
`serverMap`, the directory checks, and the outcomes of the stop, zip,
upload, restart and return-players steps (process and network I/O). -/
structure WorldEnv where
  moveFromTo : MoveFromToResult
  serverMap : ServerMap
  worldDirExists : Bool
  dirExists : Bool
  stopOk : Bool
  tempZipOk : Bool
  zipOk : Bool
  uploadOk : Bool
  restartOk : Bool
  moveListOk : Bool
  deriving DecidableEq, Repr

/-- Externally visible effects of a save/restart request, in order. -/
inductive WEv
  | evMoveFromTo (origin : String) (destination : Option String) (withReason : Bool)
  | evStopChild (name : String)
  | evZipWorld (name : String)
  | evUpload (destPath : String)
  | evRestartChild (name : String) (port : Int) (dir : String)
  | evMoveListTo (players : List String) (server : String)
  deriving DecidableEq, Repr

/-- Responses of the save/restart handlers, one constructor per exit point.
HTTP codes below in `wRespCode`. -/
inductive WResp
  | missingName
  | proxyCallFailed
  | proxyBadStatus
  | proxyBadJson
  | proxyNotOk
  | notFound
  | alreadyStopped
  | worldDirMissing
  | dirMissing
  | stopFailed
  | tempZipFailed
  | zipFailed
  | tokenRepoNotSet
  | uploadFailed
  | restartFailed
  | saved (port : Int)
  | restarted (port : Int)
  deriving DecidableEq, Repr

/-- HTTP status code of each save/restart exit.  `tokenRepoNotSet` is the
500 `http.Error(w, "GitHub token/repo not set", ...)` branch. -/
def wRespCode : WResp → Nat
  | .missingName => 400
  | .proxyCallFailed => 500
  | .proxyBadStatus => 500
  | .proxyBadJson => 500
  | .proxyNotOk => 500
  | .notFound => 404
  | .alreadyStopped => 400
  | .worldDirMissing => 400
  | .dirMissing => 400
  | .stopFailed => 500
  | .tempZipFailed => 500
  | .zipFailed => 500
  | .tokenRepoNotSet => 500
  | .uploadFailed => 500
  | .restartFailed => 500
  | .saved _ => 200
  | .restarted _ => 200

/-- Source `saveWorldHandler`: evacuate players through the proxy first
(fail-fast on any proxy failure), then look up the record (404 when absent,
400 when nil), mark it restarting, require the world directory, stop the
child via `stopServerHold`, zip the world, publish to the content store
under `{name}.zip` — guarded by `token == "" || repoWorlds == ""` —
restart via `startHeldServer` on the same port and workdir, and finally
(best-effort) ask the proxy to move the evacuated players back.  The
`url.Parse` of the constant proxy address cannot fail and its error branch
is omitted.  `stopServerHold` / `startHeldServer` perform process I/O; their
outcomes come from the environment. -/
def saveWorldHandler (env : WorldEnv) (name : String) : WResp × List WEv :=
  if name = "" then (.missingName, [])
  else
    let ev0 := WEv.evMoveFromTo name (moveDest name) false
    match env.moveFromTo with
    | .transportErr => (.proxyCallFailed, [ev0])
    | .badStatus _ => (.proxyBadStatus, [ev0])
    | .badJson => (.proxyBadJson, [ev0])
    | .okFalse => (.proxyNotOk, [ev0])
    | .ok movedPlayers =>
        match alookup env.serverMap name with
        | none => (.notFound, [ev0])
        | some none => (.alreadyStopped, [ev0])
        | some (some srv) =>
            let port := srv.port
            let dir := "paper_server_" ++ toString port
            if ¬ env.worldDirExists then (.worldDirMissing, [ev0])
            else if ¬ env.stopOk then (.stopFailed, [ev0, .evStopChild name])
            else if ¬ env.tempZipOk then (.tempZipFailed, [ev0, .evStopChild name])
            else if ¬ env.zipOk then
              (.zipFailed, [ev0, .evStopChild name, .evZipWorld name])
            else if token = "" ∨ repoWorlds = "" then
              (.tokenRepoNotSet, [ev0, .evStopChild name, .evZipWorld name])
            else if ¬ env.uploadOk then
              (.uploadFailed,
                [ev0, .evStopChild name, .evZipWorld name,
                  .evUpload (pathBase (name ++ ".zip"))])
            else if ¬ env.restartOk then
              (.restartFailed,
                [ev0, .evStopChild name, .evZipWorld name,
                  .evUpload (pathBase (name ++ ".zip")),
                  .evRestartChild name port dir])
            else
              (.saved port,
                [ev0, .evStopChild name, .evZipWorld name,
                  .evUpload (pathBase (name ++ ".zip")),
                  .evRestartChild name port dir] ++
                (if movedPlayers.length > 0 then
                  [WEv.evMoveListTo movedPlayers name] else []))

/-- Source `restartWorldHandler`: same flow as `saveWorldHandler` but the proxy
call carries a reason, the existence check is on the workdir itself, and
there is no snapshot/publish step. -/
def restartWorldHandler (env : WorldEnv) (name : String) : WResp × List WEv :=
  if name = "" then (.missingName, [])
  else
    let ev0 := WEv.evMoveFromTo name (moveDest name) true
    match env.moveFromTo with
    | .transportErr => (.proxyCallFailed, [ev0])
    | .badStatus _ => (.proxyBadStatus, [ev0])
    | .badJson => (.proxyBadJson, [ev0])
    | .okFalse => (.proxyNotOk, [ev0])
    | .ok movedPlayers =>
        match alookup env.serverMap name with
        | none => (.notFound, [ev0])
        | some none => (.alreadyStopped, [ev0])
        | some (some srv) =>
            let port := srv.port
            let dir := "paper_server_" ++ toString port
            if ¬ env.dirExists then (.dirMissing, [ev0])
            else if ¬ env.stopOk then (.stopFailed, [ev0, .evStopChild name])
            else if ¬ env.restartOk then
              (.restartFailed, [ev0, .evStopChild name, .evRestartChild name port dir])
            else
              (.restarted port,
                [ev0, .evStopChild name, .evRestartChild name port dir] ++
                (if movedPlayers.length > 0 then
                  [WEv.evMoveListTo movedPlayers name] else []))

/-- C1: The claim describes the full save cycle — evacuate, stop,
publish `{name}.zip`, restart on the same port and workdir, return players,
HTTP 200.  The code cannot complete it: the handlers use the hardcoded
package constant `token = ""` (the `GITHUB_TOKEN` that `main` reads and
checks is a shadowing local that is never passed to them), so after
evacuating, stopping the child and zipping the world, every save request
hits the `token == "" || repoWorlds == ""` guard and fails with
500 "GitHub token/repo not set": the snapshot is never published, the child
is never restarted, the players are never returned, and the response is
never 200. -/
theorem saveWorld_token_unset_blocks_publish
    (env : WorldEnv) (name : String) (srv : Server) (players : List String)
    (hname : ¬ name = "")
    (hproxy : env.moveFromTo = .ok players)
    (hmap : alookup env.serverMap name = some (some srv))
    (hworld : env.worldDirExists = true)
    (hstop : env.stopOk = true)
    (htmp : env.tempZipOk = true)
    (hzip : env.zipOk = true) :
    saveWorldHandler env name =
      (.tokenRepoNotSet,
        [WEv.evMoveFromTo name (moveDest name) false,
          .evStopChild name, .evZipWorld name]) ∧
    wRespCode (saveWorldHandler env name).1 = 500 ∧
    (∀ d, WEv.evUpload d ∉ (saveWorldHandler env name).2) ∧
    (∀ n p d, WEv.evRestartChild n p d ∉ (saveWorldHandler env name).2) ∧
    (∀ pl s, WEv.evMoveListTo pl s ∉ (saveWorldHandler env name).2) := by
  have hres : saveWorldHandler env name =
      (.tokenRepoNotSet,
        [WEv.evMoveFromTo name (moveDest name) false,
          .evStopChild name, .evZipWorld name]) := by
    simp [saveWorldHandler, hname, hproxy, hmap, hworld, hstop, htmp, hzip, token]
  rw [hres]
  refine ⟨rfl, rfl, ?_, ?_, ?_⟩ <;> intros <;> simp

/-- The concrete environment of C1's failing input: instance "alpha"
running on port 3000, proxy evacuation succeeds moving `p1, p2`, the world
directory exists, and stop and zip succeed. -/
def c1Env : WorldEnv :=
  { moveFromTo := .ok ["p1", "p2"],
    serverMap := [("alpha", some ⟨3000, 3000, "running"⟩)],
    worldDirExists := true, dirExists := true,
    stopOk := true, tempZipOk := true, zipOk := true,
    uploadOk := true, restartOk := true, moveListOk := true }

/-- Witness for `saveWorld_token_unset_blocks_publish` at the failing
input: the save of "alpha" stops at the token guard with 500. -/
theorem saveWorld_token_unset_blocks_publish_witness :
    saveWorldHandler c1Env "alpha" =
      (.tokenRepoNotSet,
        [WEv.evMoveFromTo "alpha" (some "lobby") false,
          .evStopChild "alpha", .evZipWorld "alpha"]) ∧
    wRespCode (saveWorldHandler c1Env "alpha").1 = 500 :=
  have h := saveWorld_token_unset_blocks_publish c1Env "alpha"
    ⟨3000, 3000, "running"⟩ ["p1", "p2"]
    (by decide) (by rfl) (by rfl) (by rfl) (by rfl) (by rfl) (by rfl)
  ⟨by rw [h.1]; rfl, h.2.1⟩

/-- The concrete environment of C5's counterexample: a record for "alpha"
whose status is already `"restarting"`, with a successful proxy evacuation
and successful stop/zip steps. -/
def c5Env : WorldEnv :=
  { moveFromTo := .ok [],
    serverMap := [("alpha", some ⟨3000, 3000, "restarting"⟩)],
    worldDirExists := true, dirExists := true,
    stopOk := true, tempZipOk := true, zipOk := true,
    uploadOk := true, restartOk := true, moveListOk := true }

/-- C5 counterexample: The claim says a save invoked while the
record's status is `restarting` is rejected with BadRequest ("already
restarting") without performing the stop/snapshot/restart sequence.  The
handler has no such guard: on a record with status `"restarting"` it
proceeds — the child is stopped and the world zipped — and the eventual
response (the unrelated token-guard 500) is not a 400. -/
theorem saveWorld_restarting_not_rejected :
    (saveWorldHandler c5Env "alpha").1 = .tokenRepoNotSet ∧
    wRespCode (saveWorldHandler c5Env "alpha").1 ≠ 400 ∧
    WEv.evStopChild "alpha" ∈ (saveWorldHandler c5Env "alpha").2 ∧
    WEv.evZipWorld "alpha" ∈ (saveWorldHandler c5Env "alpha").2 := by
  decide

/-- C5 amended: The handler's only precondition checks after the
evacuation are: the record exists (else 404) and is non-nil (else 400
"already stopped").  A record whose status is `restarting` is not rejected:
for every environment with a successful evacuation, a non-nil record —
in particular one with status `"restarting"` — and an existing world
directory, the handler proceeds to stop the child; and a nil record yields
the 400 "already stopped" rejection. -/
theorem saveWorld_no_restarting_guard
    (env : WorldEnv) (name : String) (players : List String)
    (hname : ¬ name = "")
    (hproxy : env.moveFromTo = .ok players) :
    (∀ srv : Server, alookup env.serverMap name = some (some srv) →
      srv.status = "restarting" → env.worldDirExists = true →
      WEv.evStopChild name ∈ (saveWorldHandler env name).2) ∧
    (alookup env.serverMap name = some none →
      saveWorldHandler env name =
        (.alreadyStopped, [WEv.evMoveFromTo name (moveDest name) false]) ∧
      wRespCode .alreadyStopped = 400) := by
  constructor
  · intro srv hmap _ hworld
    simp only [saveWorldHandler, if_neg hname, hproxy, hmap, hworld]
    split_ifs <;> simp_all
  · intro hmap
    refine ⟨?_, rfl⟩
    simp [saveWorldHandler, hname, hproxy, hmap]

/-- Witness for `saveWorld_no_restarting_guard` at C5's concrete
environment (record in status `"restarting"`): the stop is performed. -/
theorem saveWorld_no_restarting_guard_witness :
    WEv.evStopChild "alpha" ∈ (saveWorldHandler c5Env "alpha").2 :=
  (saveWorld_no_restarting_guard c5Env "alpha" []
    (by decide) (by rfl)).1 ⟨3000, 3000, "restarting"⟩ (by rfl) (by rfl) (by rfl)

/-- C10: In both `saveWorldHandler` and `restartWorldHandler` the proxy
`/move_from_to` evacuation is issued before the `serverMap` lookup: for
every request naming an unknown instance whose evacuation call succeeds,
the handler's effect trace is exactly the evacuation call — players are
moved away from the unknown name — followed by a 404 Not Found response,
with no compensating proxy call. -/
theorem evacuation_before_existence_check
    (env : WorldEnv) (name : String) (players : List String)
    (hname : ¬ name = "")
    (hproxy : env.moveFromTo = .ok players)
    (habsent : alookup env.serverMap name = none) :
    saveWorldHandler env name =
      (.notFound, [WEv.evMoveFromTo name (moveDest name) false]) ∧
    restartWorldHandler env name =
      (.notFound, [WEv.evMoveFromTo name (moveDest name) true]) ∧
    wRespCode .notFound = 404 := by
  refine ⟨?_, ?_, rfl⟩ <;>
    simp [saveWorldHandler, restartWorldHandler, hname, hproxy, habsent]

/-- Witness for `evacuation_before_existence_check`: saving the unknown
instance "ghost" on an empty node still evacuates "ghost" at the proxy and
returns 404. -/
theorem evacuation_before_existence_check_witness :
    saveWorldHandler
        { moveFromTo := .ok ["p9"], serverMap := [],
          worldDirExists := true, dirExists := true,
          stopOk := true, tempZipOk := true, zipOk := true,
          uploadOk := true, restartOk := true, moveListOk := true } "ghost" =
      (.notFound, [WEv.evMoveFromTo "ghost" (some "lobby") false]) :=
  have h := evacuation_before_existence_check
    { moveFromTo := .ok ["p9"], serverMap := [],
      worldDirExists := true, dirExists := true,
      stopOk := true, tempZipOk := true, zipOk := true,
      uploadOk := true, restartOk := true, moveListOk := true } "ghost" ["p9"]
    (by decide) (by rfl) (by rfl)
  by rw [h.1]; rfl

/-! ### `zipDir` (instance manager snapshot engine)

`zipDir` walks the world directory with `filepath.Walk`, skipping the root
(`relPath == "."`), splitting each relative path on the separator and —
when any segment is blacklisted — returning `filepath.SkipDir` for
directories (pruning the subtree) and `nil` for files; otherwise it emits a
directory entry with a trailing slash or deflates the file under its
relative path.  The directory tree is modeled by the mutually inductive
`FsTree`/`FsForest` (a forest is the children list of a directory, kept as
its own inductive so the recursion is structural); the walk carries the
segment list of the relative path and emits entries as segment lists. -/

mutual
inductive FsTree where
  | file (name : String)
  | dir (name : String) (children : FsForest)
  deriving DecidableEq, Repr
inductive FsForest where
  | nil
  | cons (t : FsTree) (rest : FsForest)
  deriving DecidableEq, Repr
end

/-- An archive entry: the segments of its relative path, and whether it is
a directory entry. -/
structure ZEntry where
  segs : List String
  isDir : Bool
  deriving DecidableEq, Repr

/-- The rendered name of an archive entry: segments joined by the path
separator, directories with a trailing slash. -/
def entryName (e : ZEntry) : String :=
  String.intercalate "/" e.segs ++ (if e.isDir then "/" else "")

mutual
/-- The `filepath.Walk` body of `zipDir` at one visited node, given the
segments of the parent directory relative to the archive root: if any
segment of the node's relative path is blacklisted, a directory is pruned
(`SkipDir`) and a file is skipped; otherwise a directory contributes its
entry and its walked children, a file its entry. -/
def zipWalkTree (bl above : List String) : FsTree → List ZEntry
  | .file n =>
      if (above ++ [n]).any (fun s => decide (s ∈ bl)) then []
      else [⟨above ++ [n], false⟩]
  | .dir n cs =>
      if (above ++ [n]).any (fun s => decide (s ∈ bl)) then []
      else ⟨above ++ [n], true⟩ :: zipWalkForest bl (above ++ [n]) cs
/-- The walk over a list of sibling nodes (lexical order is the order of
the forest). -/
def zipWalkForest (bl above : List String) : FsForest → List ZEntry
  | .nil => []
  | .cons t rest => zipWalkTree bl above t ++ zipWalkForest bl above rest
end

/-- The blacklist `saveWorldHandler` passes to `zipDir`. -/
def saveBlacklist : List String := ["advancements", "playerdata", "stats"]

/-- Source `zipDir(worldDir, ..., blacklist)`: the entries of the produced archive
for a world directory with children `world` (the root itself,
`relPath == "."`, is skipped by the walk). -/
def zipDirEntries (world : FsForest) : List ZEntry :=
  zipWalkForest saveBlacklist [] world

mutual
theorem zipWalkTree_clean : ∀ (bl above : List String) (t : FsTree),
    ∀ e ∈ zipWalkTree bl above t, ∀ s ∈ e.segs, s ∉ bl
  | bl, above, .file n => by
      intro e he s hs
      by_cases hc : (above ++ [n]).any (fun s => decide (s ∈ bl))
      · simp [zipWalkTree, hc] at he
      · simp only [zipWalkTree, if_neg hc, List.mem_singleton] at he
        subst he
        have := List.any_eq_false.mp (Bool.not_eq_true _ ▸ hc)
        simpa using this s hs
  | bl, above, .dir n cs => by
      intro e he s hs
      by_cases hc : (above ++ [n]).any (fun s => decide (s ∈ bl))
      · simp [zipWalkTree, hc] at he
      · simp only [zipWalkTree, if_neg hc, List.mem_cons] at he
        rcases he with rfl | he
        · have := List.any_eq_false.mp (Bool.not_eq_true _ ▸ hc)
          simpa using this s hs
        · exact zipWalkForest_clean bl (above ++ [n]) cs e he s hs
theorem zipWalkForest_clean : ∀ (bl above : List String) (f : FsForest),
    ∀ e ∈ zipWalkForest bl above f, ∀ s ∈ e.segs, s ∉ bl
  | bl, above, .nil => by simp [zipWalkForest]
  | bl, above, .cons t rest => by
      intro e he s hs
      rcases List.mem_append.mp he with h | h
      · exact zipWalkTree_clean bl above t e h s hs
      · exact zipWalkForest_clean bl above rest e h s hs
end

/-- C9: Every archive produced by the snapshot engine excludes the
blacklisted world subtrees: no entry of `zipDir`'s output has a path
segment equal to `advancements`, `playerdata` or `stats`; a directory whose
name is blacklisted contributes nothing to the walk (the subtree is pruned
via `SkipDir`), and a file with a blacklisted segment is skipped. -/
theorem zip_excludes_blacklisted_segments :
    (∀ (world : FsForest) (e : ZEntry), e ∈ zipDirEntries world →
      ∀ s ∈ e.segs, ¬(s = "advancements" ∨ s = "playerdata" ∨ s = "stats")) ∧
    (∀ (bl above : List String) (n : String) (cs : FsForest), n ∈ bl →
      zipWalkTree bl above (.dir n cs) = []) ∧
    (∀ (bl above : List String) (n : String), n ∈ bl →
      zipWalkTree bl above (.file n) = []) := by
  refine ⟨?_, ?_, ?_⟩
  · intro world e he s hs
    have := zipWalkForest_clean saveBlacklist [] world e he s hs
    simpa [saveBlacklist] using this
  · intro bl above n cs hn
    have hc : (above ++ [n]).any (fun s => decide (s ∈ bl)) = true :=
      List.any_eq_true.mpr ⟨n, by simp, by simpa using hn⟩
    simp [zipWalkTree, hc]
  · intro bl above n hn
    have hc : (above ++ [n]).any (fun s => decide (s ∈ bl)) = true :=
      List.any_eq_true.mpr ⟨n, by simp, by simpa using hn⟩
    simp [zipWalkTree, hc]

/-- Witness for `zip_excludes_blacklisted_segments`: a `playerdata`
directory is pruned whole, and in the archive of a concrete world holding
`region/r.0.0.mca` next to a `stats` subtree, the emitted file entry's
segment `region` is not blacklisted. -/
theorem zip_excludes_blacklisted_segments_witness :
    zipWalkTree saveBlacklist [] (.dir "playerdata" (.cons (.file "p1.dat") .nil)) = [] ∧
    ¬("region" = "advancements" ∨ "region" = "playerdata" ∨ "region" = "stats") :=
  ⟨zip_excludes_blacklisted_segments.2.1 saveBlacklist [] "playerdata"
      (.cons (.file "p1.dat") .nil) (by decide),
   zip_excludes_blacklisted_segments.1
     (.cons (.dir "region" (.cons (.file "r.0.0.mca") .nil))
       (.cons (.dir "stats" (.cons (.file "s.json") .nil)) .nil))
     ⟨["region", "r.0.0.mca"], false⟩ (by decide) "region" (by decide)⟩

/-! ### Orchestrator data model (`server_manager.go`)

`Instance` and `InstanceManager` as the orchestrator sees them.  The
`float64` CPU reading is modeled as a rational: the source only compares it
(`== 0`, `<`, `==`), and every finite float is a rational on which these
comparisons agree (JSON decoding cannot produce NaN or infinities).  RAM
fields are `uint64`; the free-RAM subtraction is taken modulo `2^64`. -/

/-- The `Instance` struct of the orchestrator. -/
structure RInstance where
  name : String
  players : List String
  playerCount : Int
  tps : Int
  port : Int
  status : String
  deriving DecidableEq, Repr

/-- The `InstanceManager` struct: poll state tag, identity, observed load
and instance list. -/
structure IM where
  state : String
  domain : String
  name : String
  cpuPercent : ℚ
  ramUsedMB : Nat
  ramTotalMB : Nat
  instances : List RInstance
  deriving DecidableEq, Repr

/-! ### `cleanupEmptyServers` (orchestrator reaper) -/

/-- Externally visible effects of one reaper sweep: the stop-server call to
the owning node (with its outcome), the 2 s teardown wait, and the proxy
remove-server call (with its outcome). -/
inductive CleanupEv
  | evStopServer (domain name : String) (ok : Bool)
  | evWait2s
  | evRemoveServer (name : String) (ok : Bool)
  deriving DecidableEq, Repr

/-- The body of the reaper's inner loop for one `(node, instance)` pair:
skip `"lobby"` by name; otherwise, when the instance has zero players and
status `running` or `started`, call stop-server on the node — and only when
that succeeds, wait 2 s and ask the proxy to remove the server (a failed
stop `continue`s, skipping both). -/
def cleanupInstance (stopOk : String → String → Bool) (removeOk : String → Bool)
    (dom : String) (inst : RInstance) : List CleanupEv :=
  if inst.name = "lobby" then []
  else if inst.playerCount = 0 ∧ (inst.status = "running" ∨ inst.status = "started") then
    if stopOk dom inst.name then
      [.evStopServer dom inst.name true, .evWait2s,
        .evRemoveServer inst.name (removeOk inst.name)]
    else [.evStopServer dom inst.name false]
  else []

/-- Source `cleanupEmptyServers` over the latest snapshot: every instance of every
node, in order. -/
def cleanupEmptyServers (stopOk : String → String → Bool) (removeOk : String → Bool)
    (ims : List IM) : List CleanupEv :=
  ims.flatMap fun im => im.instances.flatMap (cleanupInstance stopOk removeOk im.domain)

/-- C8: On every reaper sweep: a stop-server call is issued for an
instance only if it belongs to some node of the snapshot, is not named
`"lobby"`, has zero players and has status `running` or `started`; no stop
is ever issued for `"lobby"`; a proxy remove-server call for a name is
issued only if the stop-server call for it succeeded (and under the same
conditions); and for an instance whose stop fails, that pair's contribution
to the sweep is exactly the failed stop call — the 2 s wait and the proxy
removal are skipped. -/
theorem reaper_conditions
    (stopOk : String → String → Bool) (removeOk : String → Bool) (ims : List IM) :
    (∀ dom n ok, CleanupEv.evStopServer dom n ok ∈ cleanupEmptyServers stopOk removeOk ims →
      ∃ im ∈ ims, ∃ inst ∈ im.instances, im.domain = dom ∧ inst.name = n ∧
        ¬ n = "lobby" ∧ inst.playerCount = 0 ∧
        (inst.status = "running" ∨ inst.status = "started") ∧ ok = stopOk dom n) ∧
    (∀ dom ok, CleanupEv.evStopServer dom "lobby" ok ∉ cleanupEmptyServers stopOk removeOk ims) ∧
    (∀ n ok, CleanupEv.evRemoveServer n ok ∈ cleanupEmptyServers stopOk removeOk ims →
      ∃ im ∈ ims, ∃ inst ∈ im.instances, inst.name = n ∧ ¬ n = "lobby" ∧
        inst.playerCount = 0 ∧ (inst.status = "running" ∨ inst.status = "started") ∧
        stopOk im.domain n = true ∧ ok = removeOk n) ∧
    (∀ dom inst, ¬ inst.name = "lobby" → inst.playerCount = 0 →
      (inst.status = "running" ∨ inst.status = "started") →
      stopOk dom inst.name = false →
      cleanupInstance stopOk removeOk dom inst = [.evStopServer dom inst.name false]) := by
  refine ⟨?_, ?_, ?_, ?_⟩
  · intro dom n ok hmem
    rw [cleanupEmptyServers] at hmem
    obtain ⟨im, him, hmem⟩ := List.mem_flatMap.mp hmem
    obtain ⟨inst, hinst, hmem⟩ := List.mem_flatMap.mp hmem
    refine ⟨im, him, inst, hinst, ?_⟩
    rw [cleanupInstance] at hmem
    split_ifs at hmem with h1 h2 h3 <;> simp at hmem
    · obtain ⟨rfl, rfl, rfl⟩ := hmem
      exact ⟨rfl, rfl, h1, h2.1, h2.2, h3.symm⟩
    · obtain ⟨rfl, rfl, rfl⟩ := hmem
      refine ⟨rfl, rfl, h1, h2.1, h2.2, ?_⟩
      simp only [Bool.not_eq_true] at h3
      exact h3.symm
  · intro dom ok hmem
    rw [cleanupEmptyServers] at hmem
    obtain ⟨im, him, hmem⟩ := List.mem_flatMap.mp hmem
    obtain ⟨inst, hinst, hmem⟩ := List.mem_flatMap.mp hmem
    rw [cleanupInstance] at hmem
    split_ifs at hmem with h1 h2 h3 <;> simp at hmem
    · exact h1 hmem.2.1.symm
    · exact h1 hmem.2.1.symm
  · intro n ok hmem
    rw [cleanupEmptyServers] at hmem
    obtain ⟨im, him, hmem⟩ := List.mem_flatMap.mp hmem
    obtain ⟨inst, hinst, hmem⟩ := List.mem_flatMap.mp hmem
    refine ⟨im, him, inst, hinst, ?_⟩
    rw [cleanupInstance] at hmem
    split_ifs at hmem with h1 h2 h3 <;> simp at hmem
    obtain ⟨rfl, rfl⟩ := hmem
    exact ⟨rfl, h1, h2.1, h2.2, h3, rfl⟩
  · intro dom inst h1 h2 h3 h4
    simp [cleanupInstance, h1, h2, h3, h4]

/-- Witness for `reaper_conditions`: scenario 5 of the spec — a snapshot
holding `lobby` and `gamma`, both empty and running; the lobby is never
stopped, and with a failing stop for `gamma` the wait and removal are
skipped. -/
theorem reaper_conditions_witness :
    (CleanupEv.evStopServer "n1:8000" "lobby" true ∉
      cleanupEmptyServers (fun _ _ => false) (fun _ => true)
        [⟨"Online", "n1:8000", "m1", 20, 4000, 16000,
          [⟨"lobby", [], 0, 20, 3000, "running"⟩,
            ⟨"gamma", [], 0, 20, 3001, "running"⟩]⟩]) ∧
    cleanupInstance (fun _ _ => false) (fun _ => true) "n1:8000"
        ⟨"gamma", [], 0, 20, 3001, "running"⟩ =
      [.evStopServer "n1:8000" "gamma" false] :=
  ⟨(reaper_conditions (fun _ _ => false) (fun _ => true)
      [⟨"Online", "n1:8000", "m1", 20, 4000, 16000,
        [⟨"lobby", [], 0, 20, 3000, "running"⟩,
          ⟨"gamma", [], 0, 20, 3001, "running"⟩]⟩]).2.1 "n1:8000" true,
   (reaper_conditions (fun _ _ => false) (fun _ => true) []).2.2.2 "n1:8000"
     ⟨"gamma", [], 0, 20, 3001, "running"⟩
     (by decide) (by decide) (Or.inl (by rfl)) (by rfl)⟩

/-! ### `ensureInstance` placement (orchestrator, step 4)

`fetchInstanceSummaries` produces one observation per registered node: on a
transport error the copied registry entry (whose observed fields hold Go's
zero values) is tagged `Offline`; on an unreadable or malformed body it is
tagged `Warning`; on success the `/system` fields are copied in and it is
tagged `Online`.  The placement section of `ensureInstance` filters the
snapshot by `CPUPercent != 0`, sorts with `sort.Slice` by CPU ascending with
larger free RAM breaking ties, and takes the first element.  `sort.Slice`
is the Go standard library, modeled by its contract (the slice ends up
sorted by the given strict `less`); it is represented by an insertion sort,
and the theorems are stated up to the `less` preorder so they hold for any
conforming sort. -/

/-- A registry entry (`ConfigIM`): only domain and name are persisted. -/
structure RegisteredIM where
  domain : String
  name : String
  deriving DecidableEq, Repr

/-- The decoded `/system` body of a node. -/
structure SysInfo where
  cpuPercent : ℚ
  ramUsedMB : Nat
  ramTotalMB : Nat
  instances : List RInstance
  deriving DecidableEq, Repr

/-- Outcome of one node's poll in `fetchInstanceSummaries`. -/
inductive FetchOutcome
  | offline
  | warning
  | online (sys : SysInfo)
  deriving DecidableEq, Repr

/-- The observation `fetchInstanceSummaries` emits for one registered node. -/
def buildObservation (reg : RegisteredIM) : FetchOutcome → IM
  | .offline => ⟨"Offline", reg.domain, reg.name, 0, 0, 0, []⟩
  | .warning => ⟨"Warning", reg.domain, reg.name, 0, 0, 0, []⟩
  | .online sys =>
      ⟨"Online", reg.domain, reg.name, sys.cpuPercent, sys.ramUsedMB,
        sys.ramTotalMB, sys.instances⟩

/-- Go `uint64` subtraction (wraps modulo `2^64`). -/
def u64Sub (a b : Nat) : Nat := ((a % 2 ^ 64) + 2 ^ 64 - b % 2 ^ 64) % 2 ^ 64

/-- Free RAM of a node: `ram_total_mb - ram_used_mb` on `uint64`. -/
def freeRAM (im : IM) : Nat := u64Sub im.ramTotalMB im.ramUsedMB

/-- The `less` closure passed to `sort.Slice`: on equal CPU, larger free
RAM first; otherwise smaller CPU first. -/
def lessIM (a b : IM) : Bool :=
  if a.cpuPercent = b.cpuPercent then decide (freeRAM b < freeRAM a)
  else decide (a.cpuPercent < b.cpuPercent)

/-- Insertion into a list sorted by a strict `less` (the element goes in
front of the first entry it is `less` than). -/
def insertLess {α : Type} (less : α → α → Bool) (x : α) : List α → List α
  | [] => [x]
  | y :: t => if less x y then x :: y :: t else y :: insertLess less x t

/-- Insertion sort by a strict `less`: a sorted permutation, as the
`sort.Slice` contract requires. -/
def sortLess {α : Type} (less : α → α → Bool) (l : List α) : List α :=
  l.foldr (insertLess less) []

/-- The placement section of `ensureInstance`: filter the snapshot to nodes
with a non-zero CPU reading, return `none` (`NoCapacity`: "No ONLINE
instance managers available to start server") when the filter is empty,
otherwise sort by `lessIM` and select the first node. -/
def ensureInstancePlacement (ims : List IM) : Option IM :=
  if (ims.filter fun im => decide (¬ im.cpuPercent = 0)).isEmpty then none
  else (sortLess lessIM (ims.filter fun im => decide (¬ im.cpuPercent = 0))).head?

theorem mem_insertLess {α : Type} (less : α → α → Bool) (x a : α) (l : List α) :
    x ∈ insertLess less a l ↔ x = a ∨ x ∈ l := by
  induction l with
  | nil => simp [insertLess]
  | cons y t ih =>
      by_cases h : less a y
      · simp [insertLess, h]
      · simp [insertLess, h, ih]
        tauto

theorem mem_sortLess {α : Type} (less : α → α → Bool) (x : α) (l : List α) :
    x ∈ sortLess less l ↔ x ∈ l := by
  induction l with
  | nil => simp [sortLess]
  | cons y t ih =>
      rw [sortLess, List.foldr_cons, ← sortLess]
      rw [mem_insertLess, ih]
      simp

theorem head_insertLess {α : Type} (less : α → α → Bool) (a : α) (l : List α) :
    (insertLess less a l).head? = some a ∨ (insertLess less a l).head? = l.head? := by
  cases l with
  | nil => simp [insertLess]
  | cons y t =>
      by_cases h : less a y
      · simp [insertLess, h]
      · simp [insertLess, h]

theorem chain'_insertLess {α : Type} (less : α → α → Bool)
    (hasym : ∀ a b, less a b = true → less b a = false)
    (a : α) (l : List α)
    (hl : l.Chain' (fun x y => less y x = false)) :
    (insertLess less a l).Chain' (fun x y => less y x = false) := by
  induction l with
  | nil => simp [insertLess]
  | cons y t ih =>
      rw [List.chain'_cons'] at hl
      by_cases h : less a y
      · rw [insertLess, if_pos h]
        rw [List.chain'_cons']
        refine ⟨?_, List.chain'_cons'.mpr hl⟩
        intro b hb
        simp at hb
        subst hb
        exact hasym a y h
      · rw [insertLess, if_neg h]
        rw [List.chain'_cons']
        refine ⟨?_, ih hl.2⟩
        intro b hb
        rcases head_insertLess less a t with he | he <;> rw [he] at hb
        · simp at hb
          subst hb
          simpa using h
        · exact hl.1 b hb

theorem chain'_sortLess {α : Type} (less : α → α → Bool)
    (hasym : ∀ a b, less a b = true → less b a = false)
    (l : List α) :
    (sortLess less l).Chain' (fun x y => less y x = false) := by
  induction l with
  | nil => simp [sortLess]
  | cons y t ih =>
      rw [sortLess, List.foldr_cons, ← sortLess]
      exact chain'_insertLess less hasym y (sortLess less t) ih

theorem chain'_head_min {α : Type} (less : α → α → Bool)
    (hirr : ∀ a, less a a = false)
    (hneg : ∀ a b c, less b a = false → less c b = false → less c a = false)
    (h : α) (l : List α)
    (hc : (h :: l).Chain' (fun x y => less y x = false)) :
    ∀ x ∈ h :: l, less x h = false := by
  induction l generalizing h with
  | nil =>
      intro x hx
      simp at hx
      subst hx
      exact hirr x
  | cons y t ih =>
      intro x hx
      rw [List.chain'_cons] at hc
      rcases List.mem_cons.mp hx with rfl | hx'
      · exact hirr x
      · exact hneg h y x hc.1 (ih y hc.2 x hx')

theorem lessIM_asym (a b : IM) : lessIM a b = true → lessIM b a = false := by
  rw [lessIM, lessIM]
  intro h
  by_cases h1 : a.cpuPercent = b.cpuPercent
  · rw [if_pos h1] at h
    rw [if_pos h1.symm]
    simp at h ⊢
    omega
  · rw [if_neg h1] at h
    rw [if_neg (fun e => h1 e.symm)]
    simp at h ⊢
    linarith

theorem lessIM_irrefl (a : IM) : lessIM a a = false := by
  by_cases h : lessIM a a = true
  · exact absurd (lessIM_asym a a h) (by rw [h]; simp)
  · simpa using h

theorem lessIM_negtrans (a b c : IM) :
    lessIM b a = false → lessIM c b = false → lessIM c a = false := by
  intro hba hcb
  rw [lessIM] at hba hcb ⊢
  by_cases h1 : b.cpuPercent = a.cpuPercent
  · rw [if_pos h1] at hba
    simp at hba
    by_cases h2 : c.cpuPercent = b.cpuPercent
    · rw [if_pos h2] at hcb
      simp at hcb
      rw [if_pos (h2.trans h1)]
      simp
      omega
    · rw [if_neg h2] at hcb
      simp at hcb
      have h3 : ¬ c.cpuPercent = a.cpuPercent := fun e => h2 (e.trans h1.symm)
      rw [if_neg h3]
      simp
      rw [← h1]
      exact hcb
  · rw [if_neg h1] at hba
    simp at hba
    by_cases h2 : c.cpuPercent = b.cpuPercent
    · rw [if_pos h2] at hcb
      simp at hcb
      have h3 : ¬ c.cpuPercent = a.cpuPercent := fun e => h1 (h2.symm.trans e)
      rw [if_neg h3]
      simp
      rw [h2]
      exact hba
    · rw [if_neg h2] at hcb
      simp at hcb
      by_cases h3 : c.cpuPercent = a.cpuPercent
      · exfalso
        apply h1
        exact le_antisymm (h3 ▸ hcb) hba
      · rw [if_neg h3]
        simp
        exact le_trans hba hcb

/-- C7: For every poller snapshot (each element the observation built
by `fetchInstanceSummaries`, so a node not tagged `Online` carries a zero
CPU reading): placement reports no capacity exactly when no node is
`Online` with a non-zero CPU reading; a selected node is an `Online` node
with non-zero CPU that no other eligible node compares strictly below
(CPU ascending, larger free RAM first on ties); and of two online nodes
with equal non-zero CPU, the one with more free RAM is selected. -/
theorem placement_least_loaded :
    (∀ (regs : List (RegisteredIM × FetchOutcome)),
      (ensureInstancePlacement (regs.map fun p => buildObservation p.1 p.2) = none ↔
        ∀ im ∈ regs.map fun p => buildObservation p.1 p.2,
          ¬(im.state = "Online" ∧ ¬ im.cpuPercent = 0)) ∧
      (∀ sel, ensureInstancePlacement (regs.map fun p => buildObservation p.1 p.2) = some sel →
        sel ∈ (regs.map fun p => buildObservation p.1 p.2) ∧
        sel.state = "Online" ∧ ¬ sel.cpuPercent = 0 ∧
        ∀ im ∈ regs.map fun p => buildObservation p.1 p.2,
          ¬ im.cpuPercent = 0 → lessIM im sel = false)) ∧
    (∀ a b : IM, a.state = "Online" → b.state = "Online" →
      a.cpuPercent = b.cpuPercent → ¬ a.cpuPercent = 0 →
      freeRAM a < freeRAM b → ensureInstancePlacement [a, b] = some b) := by
  constructor
  · intro regs
    set ims := regs.map fun p => buildObservation p.1 p.2 with hims
    have honline : ∀ im ∈ ims, ¬ im.cpuPercent = 0 → im.state = "Online" := by
      intro im him hcpu
      rw [hims] at him
      obtain ⟨p, _, rfl⟩ := List.mem_map.mp him
      cases hpo : p.2 <;> simp [buildObservation, hpo] at hcpu ⊢
    cases hfil : ims.filter (fun im => decide (¬ im.cpuPercent = 0)) with
    | nil =>
        have hplace : ensureInstancePlacement ims = none := by
          rw [ensureInstancePlacement, hfil]
          rfl
        constructor
        · constructor
          · intro _ im him
            rintro ⟨_, hcpu⟩
            have h0 := List.filter_eq_nil_iff.mp hfil im him
            simp at h0
            exact hcpu h0
          · intro _
            exact hplace
        · intro sel hsel
          rw [hplace] at hsel
          exact absurd hsel (by simp)
    | cons x xs =>
        have hplace : ensureInstancePlacement ims = (sortLess lessIM (x :: xs)).head? := by
          rw [ensureInstancePlacement, hfil]
          rfl
        have hxfil : x ∈ ims.filter (fun im => decide (¬ im.cpuPercent = 0)) := by
          rw [hfil]
          exact List.mem_cons_self x xs
        have hxmem := List.mem_filter.mp hxfil
        have hxcpu : ¬ x.cpuPercent = 0 := by simpa using hxmem.2
        constructor
        · constructor
          · intro hnone
            exfalso
            rw [hplace] at hnone
            have hxs : x ∈ sortLess lessIM (x :: xs) :=
              (mem_sortLess _ _ _).mpr (List.mem_cons_self x xs)
            cases hsrt : sortLess lessIM (x :: xs) with
            | nil => rw [hsrt] at hxs; exact List.not_mem_nil x hxs
            | cons h t => rw [hsrt] at hnone; exact absurd hnone (by simp)
          · intro hall
            exact absurd ⟨honline x hxmem.1 hxcpu, hxcpu⟩ (hall x hxmem.1)
        · intro sel hsel
          rw [hplace] at hsel
          have hselmem : sel ∈ ims.filter (fun im => decide (¬ im.cpuPercent = 0)) := by
            rw [hfil]
            exact (mem_sortLess _ _ _).mp (List.mem_of_mem_head? hsel)
          have hsel2 := List.mem_filter.mp hselmem
          have hcpu : ¬ sel.cpuPercent = 0 := by simpa using hsel2.2
          refine ⟨hsel2.1, honline sel hsel2.1 hcpu, hcpu, ?_⟩
          intro im him hcpuim
          have himf : im ∈ x :: xs := by
            rw [← hfil]
            exact List.mem_filter.mpr ⟨him, by simpa using hcpuim⟩
          have hims : im ∈ sortLess lessIM (x :: xs) := (mem_sortLess _ _ _).mpr himf
          cases hsrt : sortLess lessIM (x :: xs) with
          | nil => rw [hsrt] at hims; exact absurd hims (List.not_mem_nil im)
          | cons h t =>
              rw [hsrt] at hsel hims
              have hh : h = sel := by simpa using hsel
              have hchain := chain'_sortLess lessIM lessIM_asym (x :: xs)
              rw [hsrt] at hchain
              have hmin := chain'_head_min lessIM lessIM_irrefl lessIM_negtrans h t
                hchain im hims
              rw [hh] at hmin
              exact hmin
  · intro a b hao hbo hcpu hane hfr
    have hab : lessIM a b = false := by
      rw [lessIM, if_pos hcpu]
      simpa using le_of_lt hfr
    have hbne : ¬ b.cpuPercent = 0 := hcpu ▸ hane
    have hfutil : [a, b].filter (fun im => decide (¬ im.cpuPercent = 0)) = [a, b] := by
      simp [List.filter, hane, hbne]
    have hsort : sortLess lessIM [a, b] = [b, a] := by
      simp [sortLess, insertLess, hab]
    rw [ensureInstancePlacement, hfutil, hsort]
    simp

/-- Witness for `placement_least_loaded` at spec scenario 6: two online
nodes with equal CPU 20, free RAM 8000 vs 12000 — the node with more free
RAM is selected. -/
theorem placement_least_loaded_witness :
    ensureInstancePlacement
        [⟨"Online", "n1:8000", "m1", 20, 8000, 16000, []⟩,
          ⟨"Online", "n2:8000", "m2", 20, 4000, 16000, []⟩] =
      some ⟨"Online", "n2:8000", "m2", 20, 4000, 16000, []⟩ :=
  placement_least_loaded.2
    ⟨"Online", "n1:8000", "m1", 20, 8000, 16000, []⟩
    ⟨"Online", "n2:8000", "m2", 20, 4000, 16000, []⟩
    (by rfl) (by rfl) (by rfl) (by norm_num) (by decide)

end ServerNet
